import Mathlib

/-!
# Verification of the user-space demand-paged virtual memory system

This file is a shallow embedding of the pager (`src/virtualmem.c`) and its two
page-replacement policies (`src/vmpolicy_fifo.c`, `src/vmpolicy_clru.c`),
together with theorems settling the specification claims about them.

Modelling notes.
* The header `virtualmem.h` is not part of `src/`, so the bit layout of the
  page-table entry word, `NUM_PAGES` and `PAGE_SIZE` are modelled from the
  spec: a PTE is "a compact word storing four orthogonal fields" (permission,
  resident, accessed, dirty), which we represent as a structure with one field
  per bit group; the `.c` accessors that mask/or the word translate to field
  reads/updates.  `NUM_PAGES` is a build-time constant; we fix an arbitrary
  positive value.  A page's `PAGE_SIZE`-byte block of memory, and each
  `PAGE_SIZE`-byte swap slot, are modelled as functions from byte offsets to
  byte values; a full-slot `read`/`write` of `PAGE_SIZE` bytes copies the
  whole block.
* C functions that can `abort`/`exit` (failed asserts, exceeded residency cap,
  NULL-pointer dereferences, failed `malloc`) are modelled as returning
  `Option`: `none` means the process terminated.  OS primitives that the code
  treats as fatal-on-failure (`mmap`, `mprotect`, `munmap`, swap I/O) are
  modelled on their success path, since their failure also ends the process.
* The per-page `assert(page < NUM_PAGES)` inside the PTE bit helpers is
  modelled at the pager entry points (`map_page`, `unmap_page`,
  `sigsegv_handler`), which guard every reachable call; the bit helpers
  themselves are total updates of the (total) page-table function.
-/

/-- Modelled from the spec: `virtualmem.h` is missing from `src/`; the
build-time pool size `NUM_PAGES` is an arbitrary fixed positive constant. -/
def NUM_PAGES : Nat := 64

/-- The counters `num_faults` and `num_loads` are declared `unsigned int` in
the source (virtualmem.c:77,81); incrementing them wraps modulo `2 ^ 32`. -/
def UINT_MOD : Nat := 2 ^ 32

/-- Contents of one `PAGE_SIZE`-byte page or swap slot, as a map from byte
offset to byte value (the offset bound `PAGE_SIZE` lives in the missing
header and never matters: reads and writes always transfer a whole slot). -/
abbrev Bytes := Nat → Nat

/-- The three page-permission values `PAGEPERM_NONE` / `PAGEPERM_READ` /
`PAGEPERM_RDWR`. -/
inductive Perm where
  | none : Perm
  | read : Perm
  | rdwr : Perm
deriving DecidableEq, Repr

/-- Modelled from the spec: `virtualmem.h` (missing from `src/`) packs the
PTE into one word with four orthogonal fields; we keep the fields separate. -/
structure Pte where
  permission : Perm
  resident : Bool
  accessed : Bool
  dirty : Bool
deriving DecidableEq, Repr

/-- The all-zero page-table entry (`page_table[page] = 0`): permission NONE,
all flag bits clear. -/
def Pte.zero : Pte := ⟨Perm.none, false, false, false⟩

/-- The page table `pte_t page_table[NUM_PAGES]`, as a total map from page
number to entry. -/
abbrev PageTable := Nat → Pte

/-- `clear_page_entry`: zero the page's PTE. -/
def clear_page_entry (pt : PageTable) (page : Nat) : PageTable :=
  Function.update pt page Pte.zero

/-- `set_page_resident`: set the page's resident bit. -/
def set_page_resident (pt : PageTable) (page : Nat) : PageTable :=
  Function.update pt page { pt page with resident := true }

/-- `is_page_resident`: read the page's resident bit. -/
def is_page_resident (pt : PageTable) (page : Nat) : Bool :=
  (pt page).resident

/-- `set_page_accessed`: set the page's accessed bit. -/
def set_page_accessed (pt : PageTable) (page : Nat) : PageTable :=
  Function.update pt page { pt page with accessed := true }

/-- `clear_page_accessed`: clear the page's accessed bit. -/
def clear_page_accessed (pt : PageTable) (page : Nat) : PageTable :=
  Function.update pt page { pt page with accessed := false }

/-- `is_page_accessed`: read the page's accessed bit. -/
def is_page_accessed (pt : PageTable) (page : Nat) : Bool :=
  (pt page).accessed

/-- `set_page_dirty`: set the page's dirty bit. -/
def set_page_dirty (pt : PageTable) (page : Nat) : PageTable :=
  Function.update pt page { pt page with dirty := true }

/-- `is_page_dirty`: read the page's dirty bit. -/
def is_page_dirty (pt : PageTable) (page : Nat) : Bool :=
  (pt page).dirty

/-- `get_page_permission`: read the permission field of the PTE. -/
def get_page_permission (pt : PageTable) (page : Nat) : Perm :=
  (pt page).permission

/-- `set_page_permission`: `mprotect` the page's range (success path; failure
aborts the process) and replace the PTE's permission field, leaving the other
bits unmodified. -/
def set_page_permission (pt : PageTable) (page : Nat) (perm : Perm) : PageTable :=
  Function.update pt page { pt page with permission := perm }

/-! ## FIFO policy (`src/vmpolicy_fifo.c`)

The singly-linked queue with `head`/`tail` pointers is modelled as a `List`
(front = head, back = tail); `policy_page_mapped` appends at the back in both
the empty and nonempty branches of the C code, and
`choose_and_evict_victim_page` takes the front.  Dereferencing a NULL `head`
on eviction from an empty queue is a crash, modelled as `none`. -/

/-- The FIFO policy's `loaded_pages_t`: the residency cap recorded at init
plus the queue of resident pages in arrival order. -/
structure FifoQueue where
  max_resident : Nat
  queue : List Nat
deriving DecidableEq, Repr

/-- FIFO `policy_init`: empty queue, record `max_resident`.  (The `malloc` of
the queue header is taken as succeeding; its failure aborts startup.) -/
def fifo_policy_startup (mr : Nat) : FifoQueue := ⟨mr, []⟩

/-- FIFO `policy_page_mapped`: allocate a node for the page (`alloc_ok` says
whether `malloc` succeeds; on failure the process exits) and append it at the
tail of the queue. -/
def fifo_policy_page_mapped (alloc_ok : Bool) (page : Nat) (q : FifoQueue) :
    Option FifoQueue :=
  if alloc_ok = false then none
  else some { q with queue := q.queue ++ [page] }

/-- FIFO `policy_timer_tick`: do nothing. -/
def fifo_policy_timer_tick (pt : PageTable) (q : FifoQueue) :
    Option (PageTable × FifoQueue) :=
  some (pt, q)

/-- FIFO `choose_and_evict_victim_page`: return the head page and drop the
head node (NULL-head dereference on an empty queue crashes). -/
def fifo_choose_and_evict_victim_page (q : FifoQueue) :
    Option (Nat × FifoQueue) :=
  match q.queue with
  | [] => none
  | x :: l => some (x, { q with queue := l })

/-! ## CLOCK/LRU policy (`src/vmpolicy_clru.c`)

The doubly-linked queue is modelled with an explicit heap of nodes addressed
by natural-number identifiers (a bump allocator hands out fresh ids), because
the tick's unlink/relink code manipulates raw `prev`/`next` pointers and its
behavior on aliased pointers is exactly what claim C2 is about.  A NULL
pointer is `Option.none`; dereferencing it is a crash, modelled as `none`
results. -/

/-- One `page_node` of the CLOCK/LRU doubly-linked queue. -/
structure ClruNode where
  page : Nat
  prev : Option Nat
  next : Option Nat
deriving DecidableEq, Repr

/-- The CLOCK/LRU policy's `loaded_pages_t` plus the node heap: residency cap,
`num_loaded`, `head`/`tail` pointers, the nodes reachable through them, and
the next fresh node id. -/
structure ClruState where
  max_resident : Nat
  num_loaded : Nat
  head : Option Nat
  tail : Option Nat
  nodes : Nat → ClruNode
  next_id : Nat

/-- CLOCK/LRU `policy_init`: empty queue, `num_loaded = 0`, record
`max_resident`. -/
def clru_policy_startup (mr : Nat) : ClruState :=
  ⟨mr, 0, Option.none, Option.none, fun _ => ⟨0, Option.none, Option.none⟩, 0⟩

/-- CLOCK/LRU `policy_page_mapped`: allocate a node (`alloc_ok` models the
`malloc` outcome; failure exits the process), link it at the tail — head and
tail both become the new node when the queue is empty — and increment
`num_loaded`.  The C dereferences `loaded->tail` in the nonempty branch, so a
nonempty head with a NULL tail crashes. -/
def clru_policy_page_mapped (alloc_ok : Bool) (page : Nat) (q : ClruState) :
    Option ClruState :=
  if alloc_ok = false then none
  else
    let nid := q.next_id
    match q.head with
    | Option.none =>
      some { q with nodes := Function.update q.nodes nid ⟨page, Option.none, Option.none⟩,
                    head := some nid, tail := some nid,
                    num_loaded := q.num_loaded + 1, next_id := nid + 1 }
    | some _ =>
      match q.tail with
      | Option.none => none
      | some t =>
        let ns1 := Function.update q.nodes nid ⟨page, q.tail, Option.none⟩
        let ns2 := Function.update ns1 t { ns1 t with next := some nid }
        some { q with nodes := ns2, tail := some nid,
                      num_loaded := q.num_loaded + 1, next_id := nid + 1 }

/-- The common tail-append block of the tick walk:
`node->prev = loaded->tail; node->next = NULL; loaded->tail->next = node;
loaded->tail = node`, in that statement order (so when the node already is
the tail, the third statement writes the node's own `next`). -/
def clru_tick_append (q : ClruState) (i : Nat) : Option ClruState :=
  match q.tail with
  | Option.none => none
  | some t =>
    let ns1 := Function.update q.nodes i { q.nodes i with prev := q.tail, next := Option.none }
    let ns2 := Function.update ns1 t { ns1 t with next := some i }
    some { q with nodes := ns2, tail := some i }

/-- The relink step of the tick walk for the visited node `i` whose page was
accessed: unlink it when it is the head (advance `head`, clear the new head's
`prev`) or when it is strictly between head and tail (splice its neighbors),
then run the tail-append block.  Pointer reads and writes follow the C
statement order. -/
def clru_tick_relink (q : ClruState) (i : Nat) : Option ClruState :=
  if q.head = some i then
    match (q.nodes i).next with
    | Option.none => none
    | some t1 =>
      let ns1 := Function.update q.nodes t1 { q.nodes t1 with prev := Option.none }
      clru_tick_append { q with nodes := ns1, head := (ns1 i).next } i
  else if q.tail = some i then
    clru_tick_append q i
  else
    match (q.nodes i).prev with
    | Option.none => none
    | some pv =>
      let ns1 := Function.update q.nodes pv { q.nodes pv with next := (q.nodes i).next }
      match (ns1 i).next with
      | Option.none => none
      | some nx =>
        let ns2 := Function.update ns1 nx { ns1 nx with prev := (ns1 i).prev }
        clru_tick_append { q with nodes := ns2 } i

/-- The body of the tick's `for` loop, with the remaining iteration count as
fuel: read the node's page and snapshot its `next` pointer, then if the page
is accessed clear its accessed bit, set its permission to NONE and relink the
node at the tail; continue at the snapshotted successor. -/
def clru_tick_loop (pt : PageTable) (q : ClruState) (node : Option Nat) :
    Nat → Option (PageTable × ClruState)
  | 0 => some (pt, q)
  | Nat.succ n =>
    match node with
    | Option.none => none
    | some i =>
      let page := (q.nodes i).page
      let next_node := (q.nodes i).next
      if is_page_accessed pt page then
        let pt1 := clear_page_accessed pt page
        let pt2 := set_page_permission pt1 page Perm.none
        match clru_tick_relink q i with
        | Option.none => none
        | some q1 => clru_tick_loop pt2 q1 next_node n
      else
        clru_tick_loop pt q next_node n

/-- CLOCK/LRU `policy_timer_tick`: do nothing on a queue of length 0 or 1,
otherwise walk `num_loaded` nodes starting from the head. -/
def clru_policy_timer_tick (pt : PageTable) (q : ClruState) :
    Option (PageTable × ClruState) :=
  if q.num_loaded = 0 ∨ q.num_loaded = 1 then some (pt, q)
  else clru_tick_loop pt q q.head q.num_loaded

/-- CLOCK/LRU `choose_and_evict_victim_page`: return the head node's page,
advance `head` past it and decrement `num_loaded` (the C neither repairs the
new head's `prev` nor resets `tail` when the queue empties; a NULL head is a
crash). -/
def clru_choose_and_evict_victim_page (q : ClruState) :
    Option (Nat × ClruState) :=
  match q.head with
  | Option.none => none
  | some h =>
    some ((q.nodes h).page,
          { q with head := (q.nodes h).next, num_loaded := q.num_loaded - 1 })

/-! ## Well-formedness of the CLOCK/LRU queue -/

/-- Follow `next` pointers from `cur` for exactly `fuel` steps, requiring the
chain to end in NULL precisely then; returns the list of node ids visited. -/
def clru_chain (q : ClruState) : Option Nat → Nat → Option (List Nat)
  | Option.none, 0 => some []
  | Option.none, Nat.succ _ => Option.none
  | some _, 0 => Option.none
  | some i, Nat.succ n =>
    match clru_chain q (q.nodes i).next n with
    | Option.none => Option.none
    | some l => some (i :: l)

/-- Check that each node of the id list has the given `prev` pointer and that
consecutive nodes back-link correctly. -/
def clru_prev_ok (q : ClruState) : Option Nat → List Nat → Bool
  | _, [] => true
  | p, i :: l => ((q.nodes i).prev == p) && clru_prev_ok q (some i) l

/-- Check that a list of node ids has no duplicates. -/
def nodupb : List Nat → Bool
  | [] => true
  | i :: l => (!(l.contains i)) && nodupb l

/-- The CLOCK/LRU queue is a well-formed doubly-linked list: following `next`
from `head` for `num_loaded` steps reaches NULL, `prev` pointers mirror the
`next` chain, `tail` is the last node, and no node appears twice. -/
def clru_wf (q : ClruState) : Bool :=
  match clru_chain q q.head q.num_loaded with
  | Option.none => false
  | some l => clru_prev_ok q Option.none l && (q.tail == l.getLast?) && nodupb l

/-- The pages held in the queue, read off the `next` chain. -/
def clru_pages (q : ClruState) : Option (List Nat) :=
  match clru_chain q q.head q.num_loaded with
  | Option.none => Option.none
  | some l => some (l.map (fun i => (q.nodes i).page))

/-! ## The replacement-policy hook interface (`vmpolicy.h`) -/

/-- The policy capability set used by the pager: `page_mapped`, `timer_tick`
(which may alter per-page permissions, hence transforms the page table) and
`choose_and_evict_victim_page`. -/
structure Policy (σ : Type) where
  page_mapped : Nat → σ → Option σ
  timer_tick : PageTable → σ → Option (PageTable × σ)
  choose_and_evict : σ → Option (Nat × σ)

/-- The FIFO policy instance (with `malloc` succeeding). -/
def fifoPolicy : Policy FifoQueue :=
  ⟨fifo_policy_page_mapped true, fifo_policy_timer_tick,
   fifo_choose_and_evict_victim_page⟩

/-- The CLOCK/LRU policy instance (with `malloc` succeeding). -/
def clruPolicy : Policy ClruState :=
  ⟨clru_policy_page_mapped true, clru_policy_timer_tick,
   clru_choose_and_evict_victim_page⟩

/-! ## The pager (`src/virtualmem.c`) -/

/-- The pager's global state: the page table, the contents of resident pages
(`mem`) and of the swap slots (`swap`), the residency counter and cap, the
fault and load counters, and the policy's private state. -/
structure VMState (σ : Type) where
  page_table : PageTable
  mem : Nat → Bytes
  swap : Nat → Bytes
  num_resident : Nat
  max_resident : Nat
  num_faults : Nat
  num_loads : Nat
  pol : σ

/-- The zero-initialized globals at process start (static storage): all
counters zero, page table zero; swap and memory contents are parameters
(undefined initial contents). -/
def process_start (σ : Type) (pol : σ) (mem0 swap0 : Nat → Bytes) : VMState σ :=
  { page_table := fun _ => Pte.zero, mem := mem0, swap := swap0,
    num_resident := 0, max_resident := 0, num_faults := 0, num_loads := 0,
    pol := pol }

/-- `vmem_init`, as a transformation of the prior global state: set
`num_resident = 0`, record `max_resident`, set `num_faults = 0`, zero the
page table, and install the freshly initialized policy state.  The C code
does not assign `num_loads` (it is zero only by static initialization), and
the freshly created swap file's contents are whatever the OS provides, which
we keep abstract by leaving `swap` unchanged. -/
def vmem_init {σ : Type} (s : VMState σ) (mr : Nat) (pol0 : σ) : VMState σ :=
  { s with num_resident := 0, max_resident := mr, num_faults := 0,
           page_table := fun _ => Pte.zero, pol := pol0 }

/-- `map_page`: check `page < NUM_PAGES` and `!is_page_resident(page)`
(failed asserts abort), count the page against the residency cap and abort
when `num_resident` would exceed `max_resident`, `mmap` the page's range
(success path), read the page's swap slot into it, zero the PTE, set the
resident bit, set the requested permission, increment `num_loads`, and notify
the policy. -/
def map_page {σ : Type} (P : Policy σ) (s : VMState σ) (page : Nat)
    (initial_perm : Perm) : Option (VMState σ) :=
  if page < NUM_PAGES then
    if is_page_resident s.page_table page then none
    else if s.max_resident < s.num_resident + 1 then none
    else
      let mem1 := Function.update s.mem page (s.swap page)
      let pt1 := Function.update s.page_table page Pte.zero
      let pt2 := set_page_resident pt1 page
      let pt3 := set_page_permission pt2 page initial_perm
      match P.page_mapped page s.pol with
      | Option.none => none
      | some pol1 =>
        some { page_table := pt3, mem := mem1, swap := s.swap,
               num_resident := s.num_resident + 1,
               max_resident := s.max_resident,
               num_faults := s.num_faults, num_loads := (s.num_loads + 1) % UINT_MOD,
               pol := pol1 }
  else none

/-- `unmap_page`: check `page < NUM_PAGES`, `num_resident > 0` and
`is_page_resident(page)` (failed asserts abort); if the page is dirty, raise
its permission to READ and write its `PAGE_SIZE` bytes to its swap slot (a
clean page's slot is left untouched); `munmap` the range (success path),
clear the PTE and decrement `num_resident`. -/
def unmap_page {σ : Type} (s : VMState σ) (page : Nat) : Option (VMState σ) :=
  if page < NUM_PAGES then
    if 0 < s.num_resident then
      if is_page_resident s.page_table page then
        let ptA := if is_page_dirty s.page_table page
                   then set_page_permission s.page_table page Perm.read
                   else s.page_table
        let swapA := if is_page_dirty s.page_table page
                     then Function.update s.swap page (s.mem page)
                     else s.swap
        let ptB := clear_page_entry ptA page
        some { s with page_table := ptB, swap := swapA,
                      num_resident := s.num_resident - 1 }
      else none
    else none
  else none

/-- The `si_code` subkind of a SIGSEGV: `SEGV_MAPERR` (address not mapped) or
`SEGV_ACCERR` (access forbidden). -/
inductive FaultCode where
  | maperr : FaultCode
  | accerr : FaultCode
deriving DecidableEq, Repr

/-- `sigsegv_handler` at page granularity: an out-of-pool address aborts
(here: `page < NUM_PAGES` is the in-range check); `num_faults` is
incremented; on `SEGV_MAPERR` a victim is evicted when the cap is reached and
the page is mapped with permission NONE; on `SEGV_ACCERR` permission NONE is
raised to READ setting the accessed bit, READ is raised to RDWR setting the
dirty bit, and a RDWR page falls through both branches so the handler returns
with no further state change. -/
def sigsegv_handler {σ : Type} (P : Policy σ) (s : VMState σ) (page : Nat)
    (code : FaultCode) : Option (VMState σ) :=
  if page < NUM_PAGES then
    let s1 : VMState σ := { s with num_faults := (s.num_faults + 1) % UINT_MOD }
    match code with
    | FaultCode.maperr =>
      if s1.num_resident ≤ s1.max_resident then
        match (if s1.num_resident = s1.max_resident then
                 match P.choose_and_evict s1.pol with
                 | Option.none => none
                 | some (victim, pol1) =>
                   let s2 : VMState σ := { s1 with pol := pol1 }
                   if is_page_resident s2.page_table victim then
                     unmap_page s2 victim
                   else none
               else some s1) with
        | Option.none => none
        | some s3 => map_page P s3 page Perm.none
      else none
    | FaultCode.accerr =>
      if is_page_resident s1.page_table page then
        match get_page_permission s1.page_table page with
        | Perm.none =>
          let pt1 := set_page_permission s1.page_table page Perm.read
          let pt2 := set_page_accessed pt1 page
          some { s1 with page_table := pt2 }
        | Perm.read =>
          let pt1 := set_page_permission s1.page_table page Perm.rdwr
          let pt2 := set_page_dirty pt1 page
          some { s1 with page_table := pt2 }
        | Perm.rdwr => some s1
      else none
  else none

/-- `sigalrm_handler`: forward the tick to the policy. -/
def sigalrm_handler {σ : Type} (P : Policy σ) (s : VMState σ) :
    Option (VMState σ) :=
  match P.timer_tick s.page_table s.pol with
  | Option.none => none
  | some (pt1, pol1) => some { s with page_table := pt1, pol := pol1 }

/-- An asynchronous notification delivered to the process: a SIGSEGV carrying
the faulting page and subkind, or a SIGALRM timer tick. -/
inductive Event where
  | fault : Nat → FaultCode → Event
  | timer : Event
deriving DecidableEq, Repr

/-- Dispatch one notification to its handler. -/
def step {σ : Type} (P : Policy σ) (s : VMState σ) : Event → Option (VMState σ)
  | Event.fault page code => sigsegv_handler P s page code
  | Event.timer => sigalrm_handler P s

/-- Run a sequence of notifications; `none` as soon as one aborts. -/
def run {σ : Type} (P : Policy σ) (s : VMState σ) : List Event → Option (VMState σ)
  | [] => some s
  | e :: evs =>
    match step P s e with
    | Option.none => none
    | some s1 => run P s1 evs

/-- The system state right after `vmem_init` in a freshly started process
using the FIFO policy. -/
def fifo_boot (mr : Nat) (mem0 swap0 : Nat → Bytes) : VMState FifoQueue :=
  vmem_init (process_start FifoQueue (fifo_policy_startup 0) mem0 swap0) mr
    (fifo_policy_startup mr)

/-- The system state right after `vmem_init` in a freshly started process
using the CLOCK/LRU policy. -/
def clru_boot (mr : Nat) (mem0 swap0 : Nat → Bytes) : VMState ClruState :=
  vmem_init (process_start ClruState (clru_policy_startup 0) mem0 swap0) mr
    (clru_policy_startup mr)

/-- The number of pages whose resident bit is set in the page table. -/
def countResident (pt : PageTable) : Nat :=
  ((Finset.range NUM_PAGES).filter (fun p => (pt p).resident = true)).card

/-! ## Derived definitions used by the claims -/

/-- Constantly-zero initial contents for memory and swap, used by the
concrete scenarios (the spec leaves initial swap contents undefined; any
fixed choice works for the scenarios below). -/
def zbytes : Nat → Bytes := fun _ _ => 0

/-- Fold FIFO `policy_page_mapped` (with succeeding allocation) over a list
of pages: the policy's view of a sequence of successful `map_page` calls. -/
def fifo_map_all (ps : List Nat) (q : FifoQueue) : Option FifoQueue :=
  match ps with
  | [] => some q
  | p :: rest =>
    match fifo_policy_page_mapped true p q with
    | Option.none => Option.none
    | some q1 => fifo_map_all rest q1

/-- The pager's residency accounting invariant: `num_resident` equals the
number of resident pages in the page table and never exceeds
`max_resident`. -/
def ResInv {σ : Type} (s : VMState σ) : Prop :=
  s.num_resident = countResident s.page_table ∧
  s.num_resident ≤ s.max_resident

/-- The accessed/dirty page-table invariant maintained by the handlers: a
page whose permission is READ or RDWR has its accessed bit set, and a dirty
page is either accessed or has permission NONE (the CLOCK tick clears the
accessed bit only together with resetting the permission to NONE). -/
def DAInv (pt : PageTable) : Prop :=
  ∀ p, ((pt p).permission ≠ Perm.none → (pt p).accessed = true) ∧
       ((pt p).dirty = true →
          ((pt p).accessed = true ∨ (pt p).permission = Perm.none))

/-- Events of the C1 scenario on the CLOCK/LRU build: load page 0, read it,
write it (making it dirty), load page 1, then one timer tick. -/
def c1_events : List Event :=
  [Event.fault 0 FaultCode.maperr, Event.fault 0 FaultCode.accerr,
   Event.fault 0 FaultCode.accerr, Event.fault 1 FaultCode.maperr,
   Event.timer]

/-- The state the CLOCK/LRU system reaches after the C1 scenario. -/
def c1_state : VMState ClruState :=
  (run clruPolicy (clru_boot 2 zbytes zbytes) c1_events).getD
    (clru_boot 2 zbytes zbytes)

/-- Events reaching a dirty page on the CLOCK/LRU build with no intervening
tick: load page 0, read it, write it. -/
def c1w_events : List Event :=
  [Event.fault 0 FaultCode.maperr, Event.fault 0 FaultCode.accerr,
   Event.fault 0 FaultCode.accerr]

/-- The state the CLOCK/LRU system reaches after `c1w_events`. -/
def c1w_state : VMState ClruState :=
  (run clruPolicy (clru_boot 2 zbytes zbytes) c1w_events).getD
    (clru_boot 2 zbytes zbytes)

/-- Events of the C2 scenario: load pages 0 and 1, then read page 1, so that
at the next tick only the tail page of the CLOCK queue is accessed. -/
def c2_events : List Event :=
  [Event.fault 0 FaultCode.maperr, Event.fault 1 FaultCode.maperr,
   Event.fault 1 FaultCode.accerr]

/-- The pre-tick state of the C2 scenario. -/
def c2_pre : VMState ClruState :=
  (run clruPolicy (clru_boot 2 zbytes zbytes) c2_events).getD
    (clru_boot 2 zbytes zbytes)

/-- The post-tick state of the C2 scenario. -/
def c2_post : VMState ClruState :=
  (step clruPolicy c2_pre Event.timer).getD c2_pre

/-- Events driving page 0 to permission RDWR on the FIFO build: load it,
read it, write it. -/
def c6_events : List Event :=
  [Event.fault 0 FaultCode.maperr, Event.fault 0 FaultCode.accerr,
   Event.fault 0 FaultCode.accerr]

/-- The state with page 0 at permission RDWR reached by `c6_events`. -/
def c6_pre : VMState FifoQueue :=
  (run fifoPolicy (fifo_boot 1 zbytes zbytes) c6_events).getD
    (fifo_boot 1 zbytes zbytes)

/-- The state after one more access-forbidden fault on the RDWR page 0. -/
def c6_post : VMState FifoQueue :=
  (step fifoPolicy c6_pre (Event.fault 0 FaultCode.accerr)).getD c6_pre

/-- The number of in-range fault notifications in an event list; each one
increments `num_faults` once, modulo 2^32. -/
def countFaults : List Event → Nat
  | [] => 0
  | Event.fault _ _ :: evs => countFaults evs + 1
  | Event.timer :: evs => countFaults evs

/-- The number of not-mapped fault notifications in an event list; each one
completes one `map_page`, incrementing `num_loads` modulo 2^32. -/
def countMapErrs : List Event → Nat
  | [] => 0
  | Event.fault _ FaultCode.maperr :: evs => countMapErrs evs + 1
  | Event.fault _ FaultCode.accerr :: evs => countMapErrs evs
  | Event.timer :: evs => countMapErrs evs

/-- Events of the C9 wrap scenario: the C6 trace (3 faults, 1 load) followed
by 2^32 - 3 further access-forbidden faults on the RDWR page 0, each of
which returns normally (see C6) and bumps only `num_faults`. -/
def c9_wrap_events : List Event :=
  c6_events ++ List.replicate (UINT_MOD - 3) (Event.fault 0 FaultCode.accerr)

/-- The state the FIFO system reaches after `c9_wrap_events`: the C6
pre-state with `num_faults` wrapped around to 0. -/
def c9_wrap_state : VMState FifoQueue :=
  { c6_pre with num_faults := 0 }

/-- A concrete state with one resident dirty page 0 holding the byte pattern
`fun _ => 171` (0xAB), used to exercise `unmap_page`. -/
def c3_state : VMState FifoQueue :=
  { page_table := fun p => if p = 0 then ⟨Perm.rdwr, true, true, true⟩ else Pte.zero,
    mem := fun _ _ => 171, swap := zbytes,
    num_resident := 1, max_resident := 1, num_faults := 3, num_loads := 1,
    pol := ⟨1, [0]⟩ }

/-- A concrete prior global state with nonzero counters, used to exercise
`vmem_init`'s treatment of `num_loads`. -/
def c7_state : VMState FifoQueue :=
  { page_table := fun _ => Pte.zero, mem := zbytes, swap := zbytes,
    num_resident := 3, max_resident := 4, num_faults := 7, num_loads := 5,
    pol := fifo_policy_startup 4 }

/-- The state reached on the FIFO build after one page load, used as the C5
witness trace. -/
def c5_state : VMState FifoQueue :=
  (run fifoPolicy (fifo_boot 1 zbytes zbytes) [Event.fault 0 FaultCode.maperr]).getD
    (fifo_boot 1 zbytes zbytes)


/-- The FIFO queue obtained by recording page 5 into an empty FIFO policy
state with cap 3. -/
def c10_q : FifoQueue :=
  (fifo_policy_page_mapped true 5 (fifo_policy_startup 3)).getD
    (fifo_policy_startup 3)

/-! ## Pointwise lemmas for the PTE helpers -/

theorem clear_page_entry_apply (pt : PageTable) (p q : Nat) :
    clear_page_entry pt p q = if q = p then Pte.zero else pt q := by
  unfold clear_page_entry
  exact Function.update_apply pt p Pte.zero q

theorem set_page_resident_apply (pt : PageTable) (p q : Nat) :
    set_page_resident pt p q = if q = p then { pt p with resident := true } else pt q := by
  unfold set_page_resident
  exact Function.update_apply pt p _ q

theorem set_page_accessed_apply (pt : PageTable) (p q : Nat) :
    set_page_accessed pt p q = if q = p then { pt p with accessed := true } else pt q := by
  unfold set_page_accessed
  exact Function.update_apply pt p _ q

theorem clear_page_accessed_apply (pt : PageTable) (p q : Nat) :
    clear_page_accessed pt p q = if q = p then { pt p with accessed := false } else pt q := by
  unfold clear_page_accessed
  exact Function.update_apply pt p _ q

theorem set_page_dirty_apply (pt : PageTable) (p q : Nat) :
    set_page_dirty pt p q = if q = p then { pt p with dirty := true } else pt q := by
  unfold set_page_dirty
  exact Function.update_apply pt p _ q

theorem set_page_permission_apply (pt : PageTable) (p : Nat) (perm : Perm) (q : Nat) :
    set_page_permission pt p perm q = if q = p then { pt p with permission := perm } else pt q := by
  unfold set_page_permission
  exact Function.update_apply pt p _ q

/-! ## Counting resident pages -/

theorem countResident_congr (pt pt' : PageTable)
    (h : ∀ q, (pt' q).resident = (pt q).resident) :
    countResident pt' = countResident pt := by
  unfold countResident
  congr 1
  apply Finset.filter_congr
  intro q _
  simp [h q]

theorem countResident_succ (pt pt' : PageTable) (p : Nat) (hp : p < NUM_PAGES)
    (hoth : ∀ q, q ≠ p → (pt' q).resident = (pt q).resident)
    (hold : (pt p).resident = false) (hnew : (pt' p).resident = true) :
    countResident pt' = countResident pt + 1 := by
  unfold countResident
  have hins : (Finset.range NUM_PAGES).filter (fun q => (pt' q).resident = true)
      = insert p ((Finset.range NUM_PAGES).filter (fun q => (pt q).resident = true)) := by
    ext q
    by_cases hq : q = p
    · subst hq
      simp [Finset.mem_filter, Finset.mem_range, hp, hnew]
    · simp [Finset.mem_filter, Finset.mem_insert, hq, hoth q hq]
  rw [hins, Finset.card_insert_of_not_mem]
  simp [Finset.mem_filter, hold]

theorem countResident_pred (pt pt' : PageTable) (p : Nat) (hp : p < NUM_PAGES)
    (hoth : ∀ q, q ≠ p → (pt' q).resident = (pt q).resident)
    (hold : (pt p).resident = true) (hnew : (pt' p).resident = false) :
    countResident pt = countResident pt' + 1 := by
  unfold countResident
  have hins : (Finset.range NUM_PAGES).filter (fun q => (pt q).resident = true)
      = insert p ((Finset.range NUM_PAGES).filter (fun q => (pt' q).resident = true)) := by
    ext q
    by_cases hq : q = p
    · subst hq
      simp [Finset.mem_filter, Finset.mem_range, hp, hold]
    · simp [Finset.mem_filter, Finset.mem_insert, hq, hoth q hq]
  rw [hins, Finset.card_insert_of_not_mem]
  simp [Finset.mem_filter, hnew]

/-! ## Inversion lemmas for the pager operations -/

theorem map_page_eq_some {σ : Type} (P : Policy σ) (s : VMState σ) (page : Nat)
    (perm : Perm) (s' : VMState σ) (h : map_page P s page perm = some s') :
    page < NUM_PAGES ∧ is_page_resident s.page_table page = false ∧
    s.num_resident + 1 ≤ s.max_resident ∧
    ∃ pol1, P.page_mapped page s.pol = some pol1 ∧
      s' = { page_table :=
               set_page_permission
                 (set_page_resident (Function.update s.page_table page Pte.zero) page)
                 page perm,
             mem := Function.update s.mem page (s.swap page), swap := s.swap,
             num_resident := s.num_resident + 1, max_resident := s.max_resident,
             num_faults := s.num_faults, num_loads := (s.num_loads + 1) % UINT_MOD,
             pol := pol1 } := by
  unfold map_page at h
  split at h
  case isFalse => exact absurd h (by simp)
  case isTrue hlt =>
    split at h
    case isTrue => exact absurd h (by simp)
    case isFalse hres =>
      split at h
      case isTrue => exact absurd h (by simp)
      case isFalse hcap =>
        cases hpm : P.page_mapped page s.pol with
        | none =>
          rw [hpm] at h
          exact absurd h (by simp)
        | some pol1 =>
          rw [hpm] at h
          simp only [Option.some.injEq] at h
          refine ⟨hlt, by simpa using hres, by omega, pol1, rfl, h.symm⟩

theorem unmap_page_eq_some {σ : Type} (s : VMState σ) (page : Nat)
    (s' : VMState σ) (h : unmap_page s page = some s') :
    page < NUM_PAGES ∧ 0 < s.num_resident ∧
    is_page_resident s.page_table page = true ∧
    s' = { s with
           page_table :=
             clear_page_entry
               (if is_page_dirty s.page_table page
                then set_page_permission s.page_table page Perm.read
                else s.page_table) page,
           swap := if is_page_dirty s.page_table page
                   then Function.update s.swap page (s.mem page)
                   else s.swap,
           num_resident := s.num_resident - 1 } := by
  unfold unmap_page at h
  split at h
  case isFalse => exact absurd h (by simp)
  case isTrue hlt =>
    split at h
    case isFalse => exact absurd h (by simp)
    case isTrue hpos =>
      split at h
      case isFalse => exact absurd h (by simp)
      case isTrue hres =>
        simp only [Option.some.injEq] at h
        exact ⟨hlt, hpos, hres, h.symm⟩

theorem step_eq_some_cases {σ : Type} (P : Policy σ) (s s' : VMState σ)
    (e : Event) (h : step P s e = some s') :
    (∃ pt1 pol1, e = Event.timer ∧
       P.timer_tick s.page_table s.pol = some (pt1, pol1) ∧
       s' = { s with page_table := pt1, pol := pol1 }) ∨
    (∃ page, e = Event.fault page FaultCode.accerr ∧ page < NUM_PAGES ∧
       is_page_resident s.page_table page = true ∧
       (((s.page_table page).permission = Perm.none ∧
           s' = { s with
                  num_faults := (s.num_faults + 1) % UINT_MOD,
                  page_table :=
                    set_page_accessed
                      (set_page_permission s.page_table page Perm.read) page }) ∨
        ((s.page_table page).permission = Perm.read ∧
           s' = { s with
                  num_faults := (s.num_faults + 1) % UINT_MOD,
                  page_table :=
                    set_page_dirty
                      (set_page_permission s.page_table page Perm.rdwr) page }) ∨
        ((s.page_table page).permission = Perm.rdwr ∧
           s' = { s with num_faults := (s.num_faults + 1) % UINT_MOD }))) ∨
    (∃ page s3, e = Event.fault page FaultCode.maperr ∧ page < NUM_PAGES ∧
       s.num_resident ≤ s.max_resident ∧
       map_page P s3 page Perm.none = some s' ∧
       (s3 = { s with num_faults := (s.num_faults + 1) % UINT_MOD } ∨
        (∃ victim pol1,
           P.choose_and_evict s.pol = some (victim, pol1) ∧
           unmap_page { s with num_faults := (s.num_faults + 1) % UINT_MOD, pol := pol1 }
             victim = some s3))) := by
  cases e with
  | timer =>
    left
    unfold step sigalrm_handler at h
    cases htick : P.timer_tick s.page_table s.pol with
    | none =>
      rw [htick] at h
      exact absurd h (by simp)
    | some pr =>
      obtain ⟨pt1, pol1⟩ := pr
      rw [htick] at h
      simp only [Option.some.injEq] at h
      exact ⟨pt1, pol1, rfl, by simp [htick], h.symm⟩
  | fault page code =>
    simp only [step] at h
    cases code with
    | accerr =>
      right; left
      unfold sigsegv_handler at h
      simp only at h
      split at h
      case isFalse => exact absurd h (by simp)
      case isTrue hlt =>
        split at h
        case isFalse => exact absurd h (by simp)
        case isTrue hres =>
          refine ⟨page, rfl, hlt, by simpa using hres, ?_⟩
          unfold get_page_permission at h
          split at h
          case h_1 hperm =>
            simp only [Option.some.injEq] at h
            exact Or.inl ⟨hperm, h.symm⟩
          case h_2 hperm =>
            simp only [Option.some.injEq] at h
            exact Or.inr (Or.inl ⟨hperm, h.symm⟩)
          case h_3 hperm =>
            simp only [Option.some.injEq] at h
            exact Or.inr (Or.inr ⟨hperm, h.symm⟩)
    | maperr =>
      right; right
      unfold sigsegv_handler at h
      simp only at h
      split at h
      case isFalse => exact absurd h (by simp)
      case isTrue hlt =>
        split at h
        case isFalse => exact absurd h (by simp)
        case isTrue hcap =>
          split at h
          case h_1 => exact absurd h (by simp)
          case h_2 s3 heq =>
            refine ⟨page, s3, rfl, hlt, hcap, h, ?_⟩
            split at heq
            case isFalse =>
              simp only [Option.some.injEq] at heq
              exact Or.inl heq.symm
            case isTrue =>
              split at heq
              case h_1 => exact absurd heq (by simp)
              case h_2 victim pol1 hev =>
                split at heq
                case isFalse => exact absurd heq (by simp)
                case isTrue =>
                  exact Or.inr ⟨victim, pol1, hev, heq⟩

/-! ## The CLOCK/LRU tick only clears accessed bits and NONEs permissions -/

theorem clru_tick_loop_resident (fuel : Nat) :
    ∀ (pt : PageTable) (q : ClruState) (node : Option Nat) (pt' : PageTable)
      (q' : ClruState), clru_tick_loop pt q node fuel = some (pt', q') →
      ∀ p, (pt' p).resident = (pt p).resident := by
  induction fuel with
  | zero =>
    intro pt q node pt' q' h p
    simp only [clru_tick_loop, Option.some.injEq, Prod.mk.injEq] at h
    rw [← h.1]
  | succ n ih =>
    intro pt q node pt' q' h p
    unfold clru_tick_loop at h
    cases node with
    | none => exact absurd h (by simp)
    | some i =>
      simp only at h
      split at h
      case isTrue hacc =>
        split at h
        case h_1 => exact absurd h (by simp)
        case h_2 q1 hrel =>
          rw [ih _ _ _ _ _ h p]
          by_cases hp : p = (q.nodes i).page
          · subst hp
            simp [set_page_permission_apply, clear_page_accessed_apply]
          · simp [set_page_permission_apply, clear_page_accessed_apply, hp]
      case isFalse => exact ih _ _ _ _ _ h p

theorem clru_tick_loop_da (fuel : Nat) :
    ∀ (pt : PageTable) (q : ClruState) (node : Option Nat) (pt' : PageTable)
      (q' : ClruState), clru_tick_loop pt q node fuel = some (pt', q') →
      DAInv pt → DAInv pt' := by
  induction fuel with
  | zero =>
    intro pt q node pt' q' h hda
    simp only [clru_tick_loop, Option.some.injEq, Prod.mk.injEq] at h
    rw [← h.1]
    exact hda
  | succ n ih =>
    intro pt q node pt' q' h hda
    unfold clru_tick_loop at h
    cases node with
    | none => exact absurd h (by simp)
    | some i =>
      simp only at h
      split at h
      case isTrue hacc =>
        split at h
        case h_1 => exact absurd h (by simp)
        case h_2 q1 hrel =>
          refine ih _ _ _ _ _ h ?_
          intro p
          by_cases hp : p = (q.nodes i).page
          · subst hp
            simp [set_page_permission_apply, clear_page_accessed_apply]
          · simpa [set_page_permission_apply, clear_page_accessed_apply, hp]
              using hda p
      case isFalse => exact ih _ _ _ _ _ h hda

theorem clru_timer_tick_resident (pt : PageTable) (q : ClruState)
    (pt' : PageTable) (q' : ClruState)
    (h : clru_policy_timer_tick pt q = some (pt', q')) :
    ∀ p, (pt' p).resident = (pt p).resident := by
  unfold clru_policy_timer_tick at h
  split at h
  · simp only [Option.some.injEq, Prod.mk.injEq] at h
    rw [← h.1]
    exact fun p => rfl
  · exact clru_tick_loop_resident _ _ _ _ _ _ h

theorem clru_timer_tick_da (pt : PageTable) (q : ClruState)
    (pt' : PageTable) (q' : ClruState)
    (h : clru_policy_timer_tick pt q = some (pt', q')) (hda : DAInv pt) :
    DAInv pt' := by
  unfold clru_policy_timer_tick at h
  split at h
  · simp only [Option.some.injEq, Prod.mk.injEq] at h
    rw [← h.1]
    exact hda
  · exact clru_tick_loop_da _ _ _ _ _ _ h hda

/-! ## Step preservation of the residency accounting invariant -/

theorem resident_ite_perm (pt : PageTable) (page : Nat) (c : Prop)
    [Decidable c] (q : Nat) :
    ((if c then set_page_permission pt page Perm.read else pt) q).resident
      = (pt q).resident := by
  split
  · rw [set_page_permission_apply]
    by_cases hq : q = page
    · subst hq; simp
    · simp [hq]
  · rfl

theorem step_preserves_ResInv {σ : Type} (P : Policy σ)
    (Htick : ∀ (pt : PageTable) (q : σ) (pt' : PageTable) (q' : σ),
      P.timer_tick pt q = some (pt', q') →
      ∀ p, (pt' p).resident = (pt p).resident)
    (s s' : VMState σ) (e : Event) (hs : ResInv s)
    (h : step P s e = some s') : ResInv s' := by
  rcases step_eq_some_cases P s s' e h with
    ⟨pt1, pol1, _, htk, rfl⟩ |
    ⟨page, _, hlt, hres, hcase⟩ |
    ⟨page, s3, _, hlt, hcap, hmap, hs3⟩
  · exact ⟨by simpa [countResident_congr _ _ (Htick _ _ _ _ htk)] using hs.1,
           hs.2⟩
  · have hpt : ∀ (pt2 : PageTable),
        (∀ q, (pt2 q).resident = (s.page_table q).resident) →
        ResInv { s with num_faults := (s.num_faults + 1) % UINT_MOD, page_table := pt2 } := by
      intro pt2 hq
      exact ⟨by simpa [countResident_congr _ _ hq] using hs.1, hs.2⟩
    rcases hcase with ⟨hperm, rfl⟩ | ⟨hperm, rfl⟩ | ⟨hperm, rfl⟩
    · refine hpt _ (fun q => ?_)
      by_cases hq : q = page
      · subst hq
        simp [set_page_accessed_apply, set_page_permission_apply]
      · simp [set_page_accessed_apply, set_page_permission_apply, hq]
    · refine hpt _ (fun q => ?_)
      by_cases hq : q = page
      · subst hq
        simp [set_page_dirty_apply, set_page_permission_apply]
      · simp [set_page_dirty_apply, set_page_permission_apply, hq]
    · exact ⟨hs.1, hs.2⟩
  · have hs3facts : s3.num_resident = countResident s3.page_table ∧
        s3.num_resident ≤ s3.max_resident ∧
        s3.max_resident = s.max_resident := by
      rcases hs3 with rfl | ⟨victim, pol1, hev, hunm⟩
      · exact ⟨hs.1, hs.2, rfl⟩
      · obtain ⟨hvlt, hvpos, hvres, heq3⟩ := unmap_page_eq_some _ _ _ hunm
        simp only [is_page_resident] at hvres
        have h31 : s3.num_resident = s.num_resident - 1 := by rw [heq3]
        have h32 : s3.max_resident = s.max_resident := by rw [heq3]
        have h33 : countResident s.page_table = countResident s3.page_table + 1 := by
          rw [heq3]
          show countResident s.page_table =
            countResident (clear_page_entry
              (if is_page_dirty s.page_table victim = true
               then set_page_permission s.page_table victim Perm.read
               else s.page_table) victim) + 1
          refine countResident_pred _ _ victim hvlt (fun q hq => ?_) hvres ?_
          · rw [clear_page_entry_apply]
            rw [if_neg hq]
            exact resident_ite_perm _ _ _ q
          · rw [clear_page_entry_apply]
            simp [Pte.zero]
        have hn := hs.1
        have hm := hs.2
        refine ⟨by omega, by omega, h32⟩
    obtain ⟨_, hres3, hcap3, pol2, hpm, heq'⟩ :=
      map_page_eq_some P s3 page Perm.none s' hmap
    simp only [is_page_resident] at hres3
    have h'1 : s'.num_resident = s3.num_resident + 1 := by rw [heq']
    have h'2 : s'.max_resident = s3.max_resident := by rw [heq']
    have h'3 : countResident s'.page_table = countResident s3.page_table + 1 := by
      rw [heq']
      show countResident (set_page_permission
            (set_page_resident (Function.update s3.page_table page Pte.zero) page)
            page Perm.none) = countResident s3.page_table + 1
      refine countResident_succ _ _ page hlt (fun q hq => ?_) hres3 ?_
      · simp [set_page_permission_apply, set_page_resident_apply,
              Function.update_apply, hq]
      · simp [set_page_permission_apply, set_page_resident_apply,
              Function.update_apply]
    obtain ⟨ha, hb, hc⟩ := hs3facts
    exact ⟨by omega, by omega⟩

/-! ## Step preservation of the accessed/dirty invariant -/

theorem step_preserves_DAInv {σ : Type} (P : Policy σ)
    (Htick : ∀ (pt : PageTable) (q : σ) (pt' : PageTable) (q' : σ),
      P.timer_tick pt q = some (pt', q') → DAInv pt → DAInv pt')
    (s s' : VMState σ) (e : Event) (hs : DAInv s.page_table)
    (h : step P s e = some s') : DAInv s'.page_table := by
  rcases step_eq_some_cases P s s' e h with
    ⟨pt1, pol1, _, htk, rfl⟩ |
    ⟨page, _, hlt, hres, hcase⟩ |
    ⟨page, s3, _, hlt, hcap, hmap, hs3⟩
  · exact Htick _ _ _ _ htk hs
  · rcases hcase with ⟨hperm, rfl⟩ | ⟨hperm, rfl⟩ | ⟨hperm, rfl⟩
    · intro p
      by_cases hp : p = page
      · subst hp
        simp [set_page_accessed_apply, set_page_permission_apply]
      · simpa [set_page_accessed_apply, set_page_permission_apply, hp]
          using hs p
    · have haccp : (s.page_table page).accessed = true :=
        (hs page).1 (by simp [hperm])
      intro p
      by_cases hp : p = page
      · subst hp
        simp [set_page_dirty_apply, set_page_permission_apply, haccp]
      · simpa [set_page_dirty_apply, set_page_permission_apply, hp]
          using hs p
    · exact hs
  · have hs3da : DAInv s3.page_table := by
      rcases hs3 with rfl | ⟨victim, pol1, hev, hunm⟩
      · exact hs
      · obtain ⟨hvlt, hvpos, hvres, heq3⟩ := unmap_page_eq_some _ _ _ hunm
        rw [heq3]
        show DAInv (clear_page_entry
          (if is_page_dirty s.page_table victim = true
           then set_page_permission s.page_table victim Perm.read
           else s.page_table) victim)
        intro p
        by_cases hp : p = victim
        · subst hp
          simp [clear_page_entry_apply, Pte.zero]
        · have : (if is_page_dirty s.page_table victim = true
              then set_page_permission s.page_table victim Perm.read
              else s.page_table) p = s.page_table p := by
            split
            · rw [set_page_permission_apply, if_neg hp]
            · rfl
          simpa [clear_page_entry_apply, hp, this] using hs p
    obtain ⟨_, hres3, hcap3, pol2, hpm, heq'⟩ :=
      map_page_eq_some P s3 page Perm.none s' hmap
    rw [heq']
    show DAInv (set_page_permission
      (set_page_resident (Function.update s3.page_table page Pte.zero) page)
      page Perm.none)
    intro p
    by_cases hp : p = page
    · subst hp
      simp [set_page_permission_apply, set_page_resident_apply,
            Function.update_apply, Pte.zero]
    · simpa [set_page_permission_apply, set_page_resident_apply,
             Function.update_apply, hp] using hs3da p

/-! ## How each handler changes the fault and load counters -/

theorem step_counters {σ : Type} (P : Policy σ) (s s' : VMState σ) (e : Event)
    (h : step P s e = some s') :
    (e = Event.timer →
       s'.num_faults = s.num_faults ∧ s'.num_loads = s.num_loads) ∧
    (∀ page, e = Event.fault page FaultCode.accerr →
       s'.num_faults = (s.num_faults + 1) % UINT_MOD ∧
       s'.num_loads = s.num_loads) ∧
    (∀ page, e = Event.fault page FaultCode.maperr →
       s'.num_faults = (s.num_faults + 1) % UINT_MOD ∧
       s'.num_loads = (s.num_loads + 1) % UINT_MOD) := by
  rcases step_eq_some_cases P s s' e h with
    ⟨pt1, pol1, rfl, htk, rfl⟩ |
    ⟨page, rfl, hlt, hres, hcase⟩ |
    ⟨page, s3, rfl, hlt, hcap, hmap, hs3⟩
  · refine ⟨fun _ => ⟨rfl, rfl⟩, fun p hc => absurd hc (by simp),
            fun p hc => absurd hc (by simp)⟩
  · refine ⟨fun hc => absurd hc (by simp), fun p hc => ?_,
            fun p hc => absurd hc (by simp)⟩
    rcases hcase with ⟨_, rfl⟩ | ⟨_, rfl⟩ | ⟨_, rfl⟩ <;> exact ⟨rfl, rfl⟩
  · refine ⟨fun hc => absurd hc (by simp), fun p hc => absurd hc (by simp),
            fun p hc => ?_⟩
    obtain ⟨_, hres3, hcap3, pol2, hpm, heq'⟩ :=
      map_page_eq_some P s3 page Perm.none s' hmap
    have hf' : s'.num_faults = s3.num_faults := by rw [heq']
    have hl' : s'.num_loads = (s3.num_loads + 1) % UINT_MOD := by rw [heq']
    have h3 : s3.num_faults = (s.num_faults + 1) % UINT_MOD ∧
        s3.num_loads = s.num_loads := by
      rcases hs3 with rfl | ⟨victim, pol1, hev, hunm⟩
      · exact ⟨rfl, rfl⟩
      · obtain ⟨_, _, _, heq3⟩ := unmap_page_eq_some _ _ _ hunm
        exact ⟨by rw [heq3], by rw [heq3]⟩
    exact ⟨by rw [hf', h3.1], by rw [hl', h3.2]⟩

/-! ## Invariants along runs -/

theorem run_inv {σ : Type} (P : Policy σ) (I : VMState σ → Prop)
    (hstep : ∀ (s : VMState σ) (e : Event) (s' : VMState σ),
       I s → step P s e = some s' → I s') :
    ∀ (evs : List Event) (s s' : VMState σ),
      I s → run P s evs = some s' → I s' := by
  intro evs
  induction evs with
  | nil =>
    intro s s' hI h
    simp only [run, Option.some.injEq] at h
    rwa [← h]
  | cons e evs ih =>
    intro s s' hI h
    unfold run at h
    cases hst : step P s e with
    | none => rw [hst] at h; exact absurd h (by simp)
    | some s1 =>
      rw [hst] at h
      exact ih s1 s' (hstep s e s1 hI hst) h

/-! ## Small facts about boot states and the FIFO policy hooks -/

theorem countResident_zero : countResident (fun _ => Pte.zero) = 0 := by
  unfold countResident
  simp [Pte.zero]

theorem fifo_timer_tick_resident (pt : PageTable) (q : FifoQueue)
    (pt' : PageTable) (q' : FifoQueue)
    (h : fifoPolicy.timer_tick pt q = some (pt', q')) :
    ∀ p, (pt' p).resident = (pt p).resident := by
  simp only [fifoPolicy, fifo_policy_timer_tick, Option.some.injEq,
             Prod.mk.injEq] at h
  rw [← h.1]
  exact fun p => rfl

theorem fifo_timer_tick_da (pt : PageTable) (q : FifoQueue)
    (pt' : PageTable) (q' : FifoQueue)
    (h : fifoPolicy.timer_tick pt q = some (pt', q')) (hda : DAInv pt) :
    DAInv pt' := by
  simp only [fifoPolicy, fifo_policy_timer_tick, Option.some.injEq,
             Prod.mk.injEq] at h
  rw [← h.1]
  exact hda

theorem fifo_map_all_spec :
    ∀ (ps : List Nat) (q : FifoQueue),
      fifo_map_all ps q = some { q with queue := q.queue ++ ps } := by
  intro ps
  induction ps with
  | nil => intro q; simp [fifo_map_all]
  | cons p rest ih =>
    intro q
    rw [fifo_map_all]
    show (match fifo_policy_page_mapped true p q with
          | Option.none => Option.none
          | some q1 => fifo_map_all rest q1) = _
    rw [show fifo_policy_page_mapped true p q
          = some { q with queue := q.queue ++ [p] } from rfl]
    show fifo_map_all rest { q with queue := q.queue ++ [p] }
        = some { q with queue := q.queue ++ p :: rest }
    rw [ih { q with queue := q.queue ++ [p] }]
    simp

/-! ## Operational description of unmap_page -/

theorem unmap_page_spec {σ : Type} (s : VMState σ) (page : Nat)
    (h1 : page < NUM_PAGES) (h2 : is_page_resident s.page_table page = true)
    (h3 : 0 < s.num_resident) :
    ∃ s', unmap_page s page = some s' ∧
      (is_page_dirty s.page_table page = true →
         s'.swap = Function.update s.swap page (s.mem page)) ∧
      (is_page_dirty s.page_table page = false → s'.swap = s.swap) ∧
      s'.page_table page = Pte.zero ∧
      is_page_resident s'.page_table page = false ∧
      (∀ q, q ≠ page → s'.page_table q = s.page_table q) ∧
      s'.num_resident = s.num_resident - 1 ∧
      s'.mem = s.mem ∧ s'.max_resident = s.max_resident ∧
      s'.num_faults = s.num_faults ∧ s'.num_loads = s.num_loads := by
  have hu : unmap_page s page = some
      { s with
        page_table :=
          clear_page_entry
            (if is_page_dirty s.page_table page = true
             then set_page_permission s.page_table page Perm.read
             else s.page_table) page,
        swap := if is_page_dirty s.page_table page = true
                then Function.update s.swap page (s.mem page)
                else s.swap,
        num_resident := s.num_resident - 1 } := by
    unfold unmap_page
    rw [if_pos h1, if_pos h3, if_pos h2]
  refine ⟨_, hu, ?_, ?_, ?_, ?_, ?_, rfl, rfl, rfl, rfl, rfl⟩
  · intro hd
    show (if is_page_dirty s.page_table page = true
          then Function.update s.swap page (s.mem page)
          else s.swap) = _
    rw [if_pos hd]
  · intro hd
    show (if is_page_dirty s.page_table page = true
          then Function.update s.swap page (s.mem page)
          else s.swap) = _
    rw [if_neg (by simp [hd])]
  · show clear_page_entry _ page page = Pte.zero
    rw [clear_page_entry_apply, if_pos rfl]
  · show (clear_page_entry _ page page).resident = false
    rw [clear_page_entry_apply, if_pos rfl]
    rfl
  · intro q hq
    show clear_page_entry
        (if is_page_dirty s.page_table page = true
         then set_page_permission s.page_table page Perm.read
         else s.page_table) page q = s.page_table q
    rw [clear_page_entry_apply, if_neg hq]
    split
    · rw [set_page_permission_apply, if_neg hq]
    · rfl

/-! ## Claim theorems -/

/-- C1 (counterexample): the claim "dirty implies accessed after every
handler return" is false on the CLOCK/LRU build: after loading page 0,
reading and writing it, loading page 1 and letting one timer tick run, all
handlers have returned and page 0 is dirty but not accessed (the tick
cleared its accessed bit while leaving the dirty bit set). -/
theorem C1_dirty_not_accessed_counterexample :
    run clruPolicy (clru_boot 2 zbytes zbytes) c1_events = some c1_state ∧
    (c1_state.page_table 0).dirty = true ∧
    (c1_state.page_table 0).accessed = false :=
  ⟨rfl, rfl, rfl⟩

/-- C1 (amended): at every point where a handler has returned, a page whose
dirty bit is set either has its accessed bit set or has permission NONE (the
CLOCK tick clears the accessed bit of a dirty page only together with
resetting its permission to NONE); this holds on both the CLOCK/LRU and the
FIFO builds. -/
theorem C1_dirty_implies_accessed_or_none :
    (∀ (mem0 swap0 : Nat → Bytes) (mr : Nat) (evs : List Event)
       (s : VMState ClruState) (p : Nat),
       run clruPolicy (clru_boot mr mem0 swap0) evs = some s →
       (s.page_table p).dirty = true →
       ((s.page_table p).accessed = true ∨
        (s.page_table p).permission = Perm.none)) ∧
    (∀ (mem0 swap0 : Nat → Bytes) (mr : Nat) (evs : List Event)
       (s : VMState FifoQueue) (p : Nat),
       run fifoPolicy (fifo_boot mr mem0 swap0) evs = some s →
       (s.page_table p).dirty = true →
       ((s.page_table p).accessed = true ∨
        (s.page_table p).permission = Perm.none)) := by
  constructor
  · intro mem0 swap0 mr evs s p hrun hd
    have hda : DAInv s.page_table := by
      refine run_inv clruPolicy (fun t => DAInv t.page_table)
        (fun t e t' hI hst =>
          step_preserves_DAInv clruPolicy ?_ t t' e hI hst) evs _ s ?_ hrun
      · exact fun pt q pt' q' htk hda => clru_timer_tick_da pt q pt' q' htk hda
      · intro p0
        simp [clru_boot, vmem_init, process_start, Pte.zero]
    exact (hda p).2 hd
  · intro mem0 swap0 mr evs s p hrun hd
    have hda : DAInv s.page_table := by
      refine run_inv fifoPolicy (fun t => DAInv t.page_table)
        (fun t e t' hI hst =>
          step_preserves_DAInv fifoPolicy ?_ t t' e hI hst) evs _ s ?_ hrun
      · exact fun pt q pt' q' htk hda => fifo_timer_tick_da pt q pt' q' htk hda
      · intro p0
        simp [fifo_boot, vmem_init, process_start, Pte.zero]
    exact (hda p).2 hd

/-- C1 (witness): the amended invariant evaluated on the trace that loads
page 0, reads it and writes it on the CLOCK/LRU build. -/
theorem C1_dirty_implies_accessed_or_none_witness :
    (c1w_state.page_table 0).accessed = true ∨
    (c1w_state.page_table 0).permission = Perm.none :=
  C1_dirty_implies_accessed_or_none.1 zbytes zbytes 2 c1w_events c1w_state 0
    rfl rfl

/-- C2: when at tick time the only accessed page of the CLOCK queue sits in
the tail node, `policy_timer_tick` self-links that node (its `next` and
`prev` both end up pointing at the node itself) instead of leaving the
well-formed two-node queue intact: starting from the well-formed queue
[0, 1] with only page 1 accessed, after the tick the tail node 1 satisfies
`next = some 1` and `prev = some 1`, and the queue is no longer a
well-formed doubly-linked list, contradicting the claim that the walk leaves
a well-formed queue holding the same pages. -/
theorem C2_tick_corrupts_tail_node :
    run clruPolicy (clru_boot 2 zbytes zbytes) c2_events = some c2_pre ∧
    clru_wf c2_pre.pol = true ∧
    clru_pages c2_pre.pol = some [0, 1] ∧
    (c2_pre.page_table 1).accessed = true ∧
    (c2_pre.page_table 0).accessed = false ∧
    step clruPolicy c2_pre Event.timer = some c2_post ∧
    c2_post.pol.tail = some 1 ∧
    (c2_post.pol.nodes 1).next = some 1 ∧
    (c2_post.pol.nodes 1).prev = some 1 ∧
    clru_wf c2_post.pol = false :=
  ⟨rfl, rfl, rfl, rfl, rfl, rfl, rfl, rfl, rfl, rfl⟩

/-- C3: `unmap_page` of a resident page writes the page's whole slot back to
swap exactly when the page is dirty (leaving the slot untouched when clean),
clears the page's PTE to zero so the page is no longer resident, leaves
every other PTE unchanged, and decrements `num_resident`. -/
theorem C3_unmap_page_writeback_iff_dirty {σ : Type} (s : VMState σ)
    (page : Nat) (h1 : page < NUM_PAGES)
    (h2 : is_page_resident s.page_table page = true)
    (h3 : 0 < s.num_resident) :
    ∃ s', unmap_page s page = some s' ∧
      (is_page_dirty s.page_table page = true →
         s'.swap = Function.update s.swap page (s.mem page)) ∧
      (is_page_dirty s.page_table page = false → s'.swap = s.swap) ∧
      s'.page_table page = Pte.zero ∧
      is_page_resident s'.page_table page = false ∧
      (∀ q, q ≠ page → s'.page_table q = s.page_table q) ∧
      s'.num_resident = s.num_resident - 1 ∧
      s'.mem = s.mem ∧ s'.max_resident = s.max_resident ∧
      s'.num_faults = s.num_faults ∧ s'.num_loads = s.num_loads :=
  unmap_page_spec s page h1 h2 h3

/-- C3 (witness): `unmap_page` evaluated on a concrete state with one
resident dirty page 0. -/
theorem C3_unmap_page_writeback_iff_dirty_witness :
    ∃ s', unmap_page c3_state 0 = some s' ∧
      (is_page_dirty c3_state.page_table 0 = true →
         s'.swap = Function.update c3_state.swap 0 (c3_state.mem 0)) ∧
      (is_page_dirty c3_state.page_table 0 = false → s'.swap = c3_state.swap) ∧
      s'.page_table 0 = Pte.zero ∧
      is_page_resident s'.page_table 0 = false ∧
      (∀ q, q ≠ 0 → s'.page_table q = c3_state.page_table q) ∧
      s'.num_resident = c3_state.num_resident - 1 ∧
      s'.mem = c3_state.mem ∧ s'.max_resident = c3_state.max_resident ∧
      s'.num_faults = c3_state.num_faults ∧
      s'.num_loads = c3_state.num_loads :=
  C3_unmap_page_writeback_iff_dirty c3_state 0 (by decide) rfl (by decide)

/-- C4: evicting a dirty page holding an arbitrary byte pattern and then
re-loading it restores exactly that pattern: the write-back puts the pattern
into the page's swap slot and the reload copies the slot back into the
page's memory. -/
theorem C4_writeback_reload_roundtrip {σ : Type} (P : Policy σ)
    (s : VMState σ) (page : Nat) (pat : Bytes)
    (h1 : page < NUM_PAGES) (h2 : is_page_resident s.page_table page = true)
    (h3 : is_page_dirty s.page_table page = true) (h4 : 0 < s.num_resident)
    (h5 : s.num_resident ≤ s.max_resident) (h6 : s.mem page = pat)
    (hp : ∀ q : σ, ∃ q', P.page_mapped page q = some q') :
    ∃ s1 s2, unmap_page s page = some s1 ∧
      map_page P s1 page Perm.none = some s2 ∧
      s1.swap page = pat ∧ s2.mem page = pat := by
  obtain ⟨s1, hu1, hswd, hswc, hpte0, hres1, hoth, hnum, hmem1, hmax1,
          hfau1, hloa1⟩ := unmap_page_spec s page h1 h2 h4
  have hswap1 : s1.swap page = pat := by
    rw [hswd h3, Function.update_same, h6]
  have hcap' : ¬ (s1.max_resident < s1.num_resident + 1) := by
    rw [hnum, hmax1]
    omega
  obtain ⟨pol2, hpol⟩ := hp s1.pol
  have hm : map_page P s1 page Perm.none = some
      { page_table := set_page_permission (set_page_resident
          (Function.update s1.page_table page Pte.zero) page) page Perm.none,
        mem := Function.update s1.mem page (s1.swap page), swap := s1.swap,
        num_resident := s1.num_resident + 1, max_resident := s1.max_resident,
        num_faults := s1.num_faults, num_loads := (s1.num_loads + 1) % UINT_MOD,
        pol := pol2 } := by
    unfold map_page
    rw [if_pos h1, if_neg (by simp [hres1]), if_neg hcap', hpol]
  refine ⟨s1, _, hu1, hm, hswap1, ?_⟩
  show Function.update s1.mem page (s1.swap page) page = pat
  rw [Function.update_same, hswap1]

/-- C4 (witness): the round trip evaluated on a concrete state with one
resident dirty page 0 holding the constant pattern 0xAB, under the FIFO
policy. -/
theorem C4_writeback_reload_roundtrip_witness :
    ∃ s1 s2, unmap_page c3_state 0 = some s1 ∧
      map_page fifoPolicy s1 0 Perm.none = some s2 ∧
      s1.swap 0 = c3_state.mem 0 ∧ s2.mem 0 = c3_state.mem 0 :=
  C4_writeback_reload_roundtrip fifoPolicy c3_state 0 (c3_state.mem 0)
    (by decide) rfl rfl (by decide) (by decide) rfl
    (fun q => ⟨{ q with queue := q.queue ++ [0] }, rfl⟩)

/-- C5: after every handler return on either build, `num_resident` equals
the number of pages with the resident bit set and never exceeds
`max_resident`; moreover `map_page` increments `num_resident` (staying within
the cap when it returns), aborts whenever the incremented count would exceed
`max_resident`, and `unmap_page` decrements the count after clearing the
page's PTE. -/
theorem C5_resident_accounting :
    (∀ (mem0 swap0 : Nat → Bytes) (mr : Nat) (evs : List Event)
       (s : VMState FifoQueue),
       run fifoPolicy (fifo_boot mr mem0 swap0) evs = some s →
       s.num_resident = countResident s.page_table ∧
       s.num_resident ≤ s.max_resident) ∧
    (∀ (mem0 swap0 : Nat → Bytes) (mr : Nat) (evs : List Event)
       (s : VMState ClruState),
       run clruPolicy (clru_boot mr mem0 swap0) evs = some s →
       s.num_resident = countResident s.page_table ∧
       s.num_resident ≤ s.max_resident) ∧
    (∀ (σ : Type) (P : Policy σ) (s : VMState σ) (page : Nat) (perm : Perm)
       (s' : VMState σ), map_page P s page perm = some s' →
       s'.num_resident = s.num_resident + 1 ∧
       s'.num_resident ≤ s'.max_resident) ∧
    (∀ (σ : Type) (P : Policy σ) (s : VMState σ) (page : Nat) (perm : Perm),
       s.max_resident < s.num_resident + 1 →
       map_page P s page perm = Option.none) ∧
    (∀ (σ : Type) (s : VMState σ) (page : Nat) (s' : VMState σ),
       unmap_page s page = some s' →
       s'.num_resident = s.num_resident - 1 ∧
       s'.page_table page = Pte.zero) := by
  refine ⟨?_, ?_, ?_, ?_, ?_⟩
  · intro mem0 swap0 mr evs s hrun
    exact run_inv fifoPolicy ResInv
      (fun t e t' hI hst =>
        step_preserves_ResInv fifoPolicy fifo_timer_tick_resident t t' e hI hst)
      evs _ s ⟨by simp [fifo_boot, vmem_init, process_start, countResident_zero],
               by simp [fifo_boot, vmem_init, process_start]⟩ hrun
  · intro mem0 swap0 mr evs s hrun
    exact run_inv clruPolicy ResInv
      (fun t e t' hI hst =>
        step_preserves_ResInv clruPolicy clru_timer_tick_resident t t' e hI hst)
      evs _ s ⟨by simp [clru_boot, vmem_init, process_start, countResident_zero],
               by simp [clru_boot, vmem_init, process_start]⟩ hrun
  · intro σ P s page perm s' h
    obtain ⟨_, _, hcap, pol1, _, heq⟩ := map_page_eq_some P s page perm s' h
    have h1 : s'.num_resident = s.num_resident + 1 := by rw [heq]
    have h2 : s'.max_resident = s.max_resident := by rw [heq]
    exact ⟨h1, by omega⟩
  · intro σ P s page perm hover
    unfold map_page
    by_cases hlt : page < NUM_PAGES
    · rw [if_pos hlt]
      by_cases hres : is_page_resident s.page_table page = true
      · rw [if_pos hres]
      · rw [if_neg hres, if_pos hover]
    · rw [if_neg hlt]
  · intro σ s page s' h
    obtain ⟨_, _, _, heq⟩ := unmap_page_eq_some s page s' h
    refine ⟨by rw [heq], ?_⟩
    rw [heq]
    show clear_page_entry _ page page = Pte.zero
    rw [clear_page_entry_apply, if_pos rfl]

/-- C5 (witness): the accounting invariant evaluated after one page load on
the FIFO build. -/
theorem C5_resident_accounting_witness :
    c5_state.num_resident = countResident c5_state.page_table ∧
    c5_state.num_resident ≤ c5_state.max_resident :=
  C5_resident_accounting.1 zbytes zbytes 1 [Event.fault 0 FaultCode.maperr]
    c5_state rfl

/-- C6: contrary to the claim that an access-forbidden fault on a RDWR page
is treated as impossible and fatal, the handler falls through both permission
branches and returns normally: on a concrete state whose page 0 is resident
with permission RDWR, `sigsegv_handler` with `SEGV_ACCERR` returns `some`
(the process survives) with the page table, residency and load counter
unchanged and only `num_faults` incremented. -/
theorem C6_rdwr_accerr_returns_normally :
    run fifoPolicy (fifo_boot 1 zbytes zbytes) c6_events = some c6_pre ∧
    is_page_resident c6_pre.page_table 0 = true ∧
    get_page_permission c6_pre.page_table 0 = Perm.rdwr ∧
    sigsegv_handler fifoPolicy c6_pre 0 FaultCode.accerr = some c6_post ∧
    c6_post.page_table = c6_pre.page_table ∧
    c6_post.num_resident = c6_pre.num_resident ∧
    c6_post.num_loads = c6_pre.num_loads ∧
    c6_post.num_faults = c6_pre.num_faults + 1 :=
  ⟨rfl, rfl, rfl, rfl, rfl, rfl, rfl, rfl⟩

/-- C7 (counterexample): `vmem_init` does not assign `num_loads`, so called
on a prior global state whose `num_loads` is 5 it returns a state whose
`num_loads` is still 5, refuting the claim that all three counters read 0
after initialization regardless of prior state. -/
theorem C7_num_loads_not_reset_counterexample :
    (vmem_init c7_state 4 (fifo_policy_startup 4)).num_loads = 5 ∧
    (vmem_init c7_state 4 (fifo_policy_startup 4)).num_loads ≠ 0 :=
  ⟨rfl, by decide⟩

/-- C7 (amended): `vmem_init` sets `num_resident = 0` and `num_faults = 0`,
records `max_resident` and zeroes the whole page table, but leaves
`num_loads` at its prior value; all three counters read 0 after
initialization only because static initialization had already zeroed
`num_loads` at process start. -/
theorem C7_vmem_init_resets_except_loads :
    ∀ (σ : Type) (s : VMState σ) (mr : Nat) (pol0 : σ),
      (vmem_init s mr pol0).num_resident = 0 ∧
      (vmem_init s mr pol0).num_faults = 0 ∧
      (∀ p, (vmem_init s mr pol0).page_table p = Pte.zero) ∧
      (vmem_init s mr pol0).max_resident = mr ∧
      (vmem_init s mr pol0).num_loads = s.num_loads ∧
      (s.num_loads = 0 →
        (vmem_init s mr pol0).num_resident = 0 ∧
        (vmem_init s mr pol0).num_faults = 0 ∧
        (vmem_init s mr pol0).num_loads = 0) :=
  fun _sig _s _mr _pol =>
    ⟨rfl, rfl, fun _p => rfl, rfl, rfl, fun h => ⟨rfl, rfl, h⟩⟩

/-- C7 (witness): `vmem_init` evaluated on the zero-initialized globals of a
freshly started FIFO process. -/
theorem C7_vmem_init_resets_except_loads_witness :
    (vmem_init (process_start FifoQueue (fifo_policy_startup 0) zbytes zbytes)
       3 (fifo_policy_startup 3)).num_resident = 0 ∧
    (vmem_init (process_start FifoQueue (fifo_policy_startup 0) zbytes zbytes)
       3 (fifo_policy_startup 3)).num_faults = 0 ∧
    (vmem_init (process_start FifoQueue (fifo_policy_startup 0) zbytes zbytes)
       3 (fifo_policy_startup 3)).num_loads = 0 :=
  (C7_vmem_init_resets_except_loads FifoQueue
    (process_start FifoQueue (fifo_policy_startup 0) zbytes zbytes) 3
    (fifo_policy_startup 3)).2.2.2.2.2 rfl

/-- C8: the FIFO policy records mapped pages in arrival order and evicts
from the front: folding `policy_page_mapped` over any page sequence starting
from the empty queue yields exactly that sequence, eviction returns the head
of the queue, and in the concrete scenario with cap 3 mapping pages 0, 1, 2
makes the first eviction return page 0 and the next return page 1. -/
theorem C8_fifo_victim_order :
    (∀ (mr : Nat) (ps : List Nat),
       fifo_map_all ps (fifo_policy_startup mr) = some ⟨mr, ps⟩) ∧
    (∀ (q : FifoQueue) (x : Nat) (l : List Nat), q.queue = x :: l →
       fifo_choose_and_evict_victim_page q = some (x, { q with queue := l })) ∧
    (fifo_map_all [0, 1, 2] (fifo_policy_startup 3) = some ⟨3, [0, 1, 2]⟩ ∧
     fifo_choose_and_evict_victim_page ⟨3, [0, 1, 2]⟩ = some (0, ⟨3, [1, 2]⟩) ∧
     fifo_choose_and_evict_victim_page ⟨3, [1, 2]⟩ = some (1, ⟨3, [2]⟩)) := by
  refine ⟨?_, ?_, rfl, rfl, rfl⟩
  · intro mr ps
    simpa [fifo_policy_startup] using fifo_map_all_spec ps (fifo_policy_startup mr)
  · intro q x l hq
    unfold fifo_choose_and_evict_victim_page
    rw [hq]

/-- C8 (witness): eviction applied to the concrete three-page queue. -/
theorem C8_fifo_victim_order_witness :
    fifo_choose_and_evict_victim_page ⟨3, [0, 1, 2]⟩ = some (0, ⟨3, [1, 2]⟩) :=
  C8_fifo_victim_order.2.1 ⟨3, [0, 1, 2]⟩ 0 [1, 2] rfl

/-! ## Counting events along a run (the counters wrap modulo 2^32) -/

theorem run_append {σ : Type} (P : Policy σ) :
    ∀ (l1 l2 : List Event) (s : VMState σ),
      run P s (l1 ++ l2) = Option.bind (run P s l1) (fun t => run P t l2) := by
  intro l1
  induction l1 with
  | nil => intro l2 s; rfl
  | cons e l1 ih =>
    intro l2 s
    have lhs : run P s ((e :: l1) ++ l2) =
        (match step P s e with
         | Option.none => Option.none
         | some s1 => run P s1 (l1 ++ l2)) := rfl
    have rhs : run P s (e :: l1) =
        (match step P s e with
         | Option.none => Option.none
         | some s1 => run P s1 l1) := rfl
    rw [lhs, rhs]
    cases step P s e with
    | none => rfl
    | some s1 => exact ih l2 s1

theorem run_append_some {σ : Type} (P : Policy σ) (l1 l2 : List Event)
    (s t : VMState σ) (h : run P s l1 = some t) :
    run P s (l1 ++ l2) = run P t l2 := by
  rw [run_append P l1 l2 s, h]
  rfl

theorem countMapErrs_le_countFaults :
    ∀ evs : List Event, countMapErrs evs ≤ countFaults evs := by
  intro evs
  induction evs with
  | nil => exact Nat.le_refl 0
  | cons e evs ih =>
    cases e with
    | timer =>
      show countMapErrs evs ≤ countFaults evs
      exact ih
    | fault page code =>
      cases code with
      | maperr =>
        show countMapErrs evs + 1 ≤ countFaults evs + 1
        omega
      | accerr =>
        show countMapErrs evs ≤ countFaults evs + 1
        omega

theorem countFaults_append :
    ∀ l1 l2 : List Event,
      countFaults (l1 ++ l2) = countFaults l1 + countFaults l2 := by
  intro l1 l2
  induction l1 with
  | nil =>
    show countFaults l2 = countFaults [] + countFaults l2
    rw [show countFaults [] = 0 from rfl, Nat.zero_add]
  | cons e l1 ih =>
    cases e with
    | timer =>
      show countFaults (l1 ++ l2) = countFaults l1 + countFaults l2
      exact ih
    | fault page code =>
      show countFaults (l1 ++ l2) + 1 = countFaults l1 + 1 + countFaults l2
      omega

theorem countMapErrs_append :
    ∀ l1 l2 : List Event,
      countMapErrs (l1 ++ l2) = countMapErrs l1 + countMapErrs l2 := by
  intro l1 l2
  induction l1 with
  | nil =>
    show countMapErrs l2 = countMapErrs [] + countMapErrs l2
    rw [show countMapErrs [] = 0 from rfl, Nat.zero_add]
  | cons e l1 ih =>
    cases e with
    | timer =>
      show countMapErrs (l1 ++ l2) = countMapErrs l1 + countMapErrs l2
      exact ih
    | fault page code =>
      cases code with
      | maperr =>
        show countMapErrs (l1 ++ l2) + 1
          = countMapErrs l1 + 1 + countMapErrs l2
        omega
      | accerr =>
        show countMapErrs (l1 ++ l2) = countMapErrs l1 + countMapErrs l2
        exact ih

theorem run_counts {σ : Type} (P : Policy σ) :
    ∀ (evs : List Event) (s s' : VMState σ),
      run P s evs = some s' →
      s.num_faults < UINT_MOD → s.num_loads < UINT_MOD →
      s'.num_faults = (s.num_faults + countFaults evs) % UINT_MOD ∧
      s'.num_loads = (s.num_loads + countMapErrs evs) % UINT_MOD := by
  intro evs
  induction evs with
  | nil =>
    intro s s' h hf hl
    simp only [run, Option.some.injEq] at h
    rw [← h]
    constructor
    · rw [show countFaults [] = 0 from rfl, Nat.add_zero, Nat.mod_eq_of_lt hf]
    · rw [show countMapErrs [] = 0 from rfl, Nat.add_zero, Nat.mod_eq_of_lt hl]
  | cons e evs ih =>
    intro s s' h hf hl
    unfold run at h
    cases hst : step P s e with
    | none => rw [hst] at h; exact absurd h (by simp)
    | some s1 =>
      rw [hst] at h
      obtain ⟨ht, ha, hm⟩ := step_counters P s s1 e hst
      cases e with
      | timer =>
        obtain ⟨e1, e2⟩ := ht rfl
        obtain ⟨r1, r2⟩ := ih s1 s' h (by rw [e1]; exact hf)
          (by rw [e2]; exact hl)
        constructor
        · rw [r1, e1]
          rfl
        · rw [r2, e2]
          rfl
      | fault page code =>
        cases code with
        | accerr =>
          obtain ⟨e1, e2⟩ := ha page rfl
          obtain ⟨r1, r2⟩ := ih s1 s' h
            (by rw [e1]; exact Nat.mod_lt _ (by norm_num [UINT_MOD]))
            (by rw [e2]; exact hl)
          constructor
          · rw [r1, e1, Nat.mod_add_mod]
            congr 1
            show s.num_faults + 1 + countFaults evs
              = s.num_faults + (countFaults evs + 1)
            omega
          · rw [r2, e2]
            rfl
        | maperr =>
          obtain ⟨e1, e2⟩ := hm page rfl
          obtain ⟨r1, r2⟩ := ih s1 s' h
            (by rw [e1]; exact Nat.mod_lt _ (by norm_num [UINT_MOD]))
            (by rw [e2]; exact Nat.mod_lt _ (by norm_num [UINT_MOD]))
          constructor
          · rw [r1, e1, Nat.mod_add_mod]
            congr 1
            show s.num_faults + 1 + countFaults evs
              = s.num_faults + (countFaults evs + 1)
            omega
          · rw [r2, e2, Nat.mod_add_mod]
            congr 1
            show s.num_loads + 1 + countMapErrs evs
              = s.num_loads + (countMapErrs evs + 1)
            omega

theorem run_replicate_accerr_rdwr {σ : Type} (P : Policy σ) (page : Nat)
    (hlt : page < NUM_PAGES) :
    ∀ (k : Nat) (s : VMState σ),
      is_page_resident s.page_table page = true →
      get_page_permission s.page_table page = Perm.rdwr →
      s.num_faults < UINT_MOD →
      run P s (List.replicate k (Event.fault page FaultCode.accerr)) =
        some { s with num_faults := (s.num_faults + k) % UINT_MOD } := by
  intro k
  induction k with
  | zero =>
    intro s hres hperm hf
    show some s = some { s with num_faults := (s.num_faults + 0) % UINT_MOD }
    rw [Nat.add_zero, Nat.mod_eq_of_lt hf]
  | succ n ih =>
    intro s hres hperm hf
    have hstep : step P s (Event.fault page FaultCode.accerr) =
        some { s with num_faults := (s.num_faults + 1) % UINT_MOD } := by
      simp only [step]
      unfold sigsegv_handler
      rw [if_pos hlt]
      simp only
      rw [if_pos hres]
      rw [show get_page_permission s.page_table page = Perm.rdwr from hperm]
    rw [List.replicate_succ]
    unfold run
    rw [hstep]
    show run P { s with num_faults := (s.num_faults + 1) % UINT_MOD }
        (List.replicate n (Event.fault page FaultCode.accerr)) = _
    rw [ih { s with num_faults := (s.num_faults + 1) % UINT_MOD } hres hperm
        (Nat.mod_lt _ (by norm_num [UINT_MOD]))]
    have harith : ((s.num_faults + 1) % UINT_MOD + n) % UINT_MOD
        = (s.num_faults + (n + 1)) % UINT_MOD := by
      rw [Nat.mod_add_mod]
      congr 1
      omega
    rw [harith]

set_option maxRecDepth 8192 in
/-- C9 (counterexample): the claim fails because the counters are 32-bit
unsigned ints that wrap: on the freshly initialized FIFO system, the trace
that loads page 0, reads it and writes it (3 faults, 1 load) followed by
2^32 - 3 further access-forbidden faults on the now-RDWR page 0 (each of
which the handler survives, see C6) ends with every handler returned,
`num_faults` wrapped around to 0 and `num_loads` still 1: `num_loads ≤
num_faults` fails and `num_faults` has decreased from 3 to 0 along the
run. -/
theorem C9_counter_wrap_counterexample :
    run fifoPolicy (fifo_boot 1 zbytes zbytes) c9_wrap_events
      = some c9_wrap_state ∧
    c9_wrap_state.num_loads = 1 ∧
    c9_wrap_state.num_faults = 0 ∧
    ¬ (c9_wrap_state.num_loads ≤ c9_wrap_state.num_faults) ∧
    run fifoPolicy (fifo_boot 1 zbytes zbytes) c6_events = some c6_pre ∧
    c6_pre.num_faults = 3 ∧
    c9_wrap_state.num_faults < c6_pre.num_faults := by
  refine ⟨?_, rfl, rfl, by decide, rfl, rfl, by decide⟩
  have h2 : run fifoPolicy c6_pre
      (List.replicate (UINT_MOD - 3) (Event.fault 0 FaultCode.accerr)) =
      some { c6_pre with
             num_faults := (c6_pre.num_faults + (UINT_MOD - 3)) % UINT_MOD } :=
    run_replicate_accerr_rdwr fifoPolicy 0 (by decide)
      (UINT_MOD - 3) c6_pre rfl rfl (by decide)
  have h3 : (c6_pre.num_faults + (UINT_MOD - 3)) % UINT_MOD = 0 := by decide
  rw [h3] at h2
  show run fifoPolicy (fifo_boot 1 zbytes zbytes)
      (c6_events ++ List.replicate (UINT_MOD - 3)
        (Event.fault 0 FaultCode.accerr)) = some c9_wrap_state
  rw [run_append_some fifoPolicy c6_events
      (List.replicate (UINT_MOD - 3) (Event.fault 0 FaultCode.accerr))
      (fifo_boot 1 zbytes zbytes) c6_pre rfl]
  rw [h2]
  rfl

/-- C9 (amended): the fault and load counters are 32-bit unsigned and wrap
modulo 2^32. Under any policy, across every run from a freshly initialized
system, `num_faults` equals the number of handled in-range faults modulo
2^32 and `num_loads` the number of completed `map_page` calls (one per
not-mapped fault) modulo 2^32; each completed `map_page` adds one to
`num_loads` modulo 2^32; per event, a not-mapped fault adds one (mod 2^32)
to both counters, an access-forbidden fault adds one (mod 2^32) to
`num_faults` only, and a timer tick changes neither; and on every run
containing fewer than 2^32 faults the claim holds as originally stated:
`num_loads ≤ num_faults`, and both counters are non-decreasing from any
prefix of the run to its end. -/
theorem C9_fault_load_counters_mod :
    (∀ (σ : Type) (P : Policy σ) (polA polB : σ)
       (mem0 swap0 : Nat → Bytes) (mr : Nat) (evs : List Event)
       (s : VMState σ),
       run P (vmem_init (process_start σ polA mem0 swap0) mr polB) evs
         = some s →
       s.num_faults = countFaults evs % UINT_MOD ∧
       s.num_loads = countMapErrs evs % UINT_MOD) ∧
    (∀ (σ : Type) (P : Policy σ) (s s' : VMState σ) (page : Nat) (perm : Perm),
       map_page P s page perm = some s' →
       s'.num_loads = (s.num_loads + 1) % UINT_MOD) ∧
    (∀ (σ : Type) (P : Policy σ) (s s' : VMState σ) (page : Nat),
       step P s (Event.fault page FaultCode.maperr) = some s' →
       s'.num_faults = (s.num_faults + 1) % UINT_MOD ∧
       s'.num_loads = (s.num_loads + 1) % UINT_MOD) ∧
    (∀ (σ : Type) (P : Policy σ) (s s' : VMState σ) (page : Nat),
       step P s (Event.fault page FaultCode.accerr) = some s' →
       s'.num_faults = (s.num_faults + 1) % UINT_MOD ∧
       s'.num_loads = s.num_loads) ∧
    (∀ (σ : Type) (P : Policy σ) (s s' : VMState σ),
       step P s Event.timer = some s' →
       s'.num_faults = s.num_faults ∧ s'.num_loads = s.num_loads) ∧
    (∀ (σ : Type) (P : Policy σ) (polA polB : σ)
       (mem0 swap0 : Nat → Bytes) (mr : Nat) (evs : List Event)
       (s : VMState σ),
       run P (vmem_init (process_start σ polA mem0 swap0) mr polB) evs
         = some s →
       countFaults evs < UINT_MOD →
       s.num_loads ≤ s.num_faults ∧
       (∀ (l1 l2 : List Event) (s1 : VMState σ), evs = l1 ++ l2 →
          run P (vmem_init (process_start σ polA mem0 swap0) mr polB) l1
            = some s1 →
          s1.num_faults ≤ s.num_faults ∧ s1.num_loads ≤ s.num_loads)) := by
  have hcounts : ∀ (σ : Type) (P : Policy σ) (polA polB : σ)
      (mem0 swap0 : Nat → Bytes) (mr : Nat) (evs : List Event)
      (s : VMState σ),
      run P (vmem_init (process_start σ polA mem0 swap0) mr polB) evs
        = some s →
      s.num_faults = countFaults evs % UINT_MOD ∧
      s.num_loads = countMapErrs evs % UINT_MOD := by
    intro σ P polA polB mem0 swap0 mr evs s hrun
    obtain ⟨r1, r2⟩ := run_counts P evs _ s hrun
      (show (0 : Nat) < UINT_MOD by norm_num [UINT_MOD])
      (show (0 : Nat) < UINT_MOD by norm_num [UINT_MOD])
    constructor
    · rw [r1]
      show ((0 : Nat) + countFaults evs) % UINT_MOD
        = countFaults evs % UINT_MOD
      rw [Nat.zero_add]
    · rw [r2]
      show ((0 : Nat) + countMapErrs evs) % UINT_MOD
        = countMapErrs evs % UINT_MOD
      rw [Nat.zero_add]
  refine ⟨hcounts, ?_, ?_, ?_, ?_, ?_⟩
  · intro σ P s s' page perm h
    obtain ⟨_, _, _, pol1, _, heq⟩ := map_page_eq_some P s page perm s' h
    rw [heq]
  · intro σ P s s' page h
    exact (step_counters P s s' _ h).2.2 page rfl
  · intro σ P s s' page h
    exact (step_counters P s s' _ h).2.1 page rfl
  · intro σ P s s' h
    exact (step_counters P s s' _ h).1 rfl
  · intro σ P polA polB mem0 swap0 mr evs s hrun hwrap
    obtain ⟨r1, r2⟩ := hcounts σ P polA polB mem0 swap0 mr evs s hrun
    have hMle : countMapErrs evs ≤ countFaults evs :=
      countMapErrs_le_countFaults evs
    have hfv : s.num_faults = countFaults evs := by
      rw [r1, Nat.mod_eq_of_lt hwrap]
    have hlv : s.num_loads = countMapErrs evs := by
      rw [r2, Nat.mod_eq_of_lt (Nat.lt_of_le_of_lt hMle hwrap)]
    refine ⟨by omega, ?_⟩
    intro l1 l2 s1 heq hrun1
    subst heq
    obtain ⟨p1, p2⟩ := hcounts σ P polA polB mem0 swap0 mr l1 s1 hrun1
    have hfl1 : countFaults l1 ≤ countFaults (l1 ++ l2) := by
      rw [countFaults_append]
      omega
    have hml1 : countMapErrs l1 ≤ countMapErrs (l1 ++ l2) := by
      rw [countMapErrs_append]
      omega
    have hq1 : s1.num_faults = countFaults l1 := by
      rw [p1, Nat.mod_eq_of_lt (Nat.lt_of_le_of_lt hfl1 hwrap)]
    have hq2 : s1.num_loads = countMapErrs l1 := by
      rw [p2, Nat.mod_eq_of_lt
        (Nat.lt_of_le_of_lt (countMapErrs_le_countFaults l1)
          (Nat.lt_of_le_of_lt hfl1 hwrap))]
    exact ⟨by rw [hq1, hfv]; exact hfl1, by rw [hq2, hlv]; exact hml1⟩

/-- C9 (witness): the modular counter characterization evaluated after one
page load on the FIFO build. -/
theorem C9_fault_load_counters_mod_witness :
    c5_state.num_faults
      = countFaults [Event.fault 0 FaultCode.maperr] % UINT_MOD ∧
    c5_state.num_loads
      = countMapErrs [Event.fault 0 FaultCode.maperr] % UINT_MOD :=
  C9_fault_load_counters_mod.1 FifoQueue fifoPolicy (fifo_policy_startup 0)
    (fifo_policy_startup 1) zbytes zbytes 1 [Event.fault 0 FaultCode.maperr]
    c5_state rfl

/-- C10: in both policies `policy_page_mapped` terminates the process when
the node allocation fails (it never returns with the page unrecorded), and
whenever it does return, the new page sits in the queue: at the back of the
FIFO list, and in the freshly allocated tail node of the CLOCK/LRU queue. -/
theorem C10_page_mapped_alloc_failure :
    (∀ (page : Nat) (q : FifoQueue),
       fifo_policy_page_mapped false page q = Option.none) ∧
    (∀ (page : Nat) (q : ClruState),
       clru_policy_page_mapped false page q = Option.none) ∧
    (∀ (page : Nat) (q q' : FifoQueue),
       fifo_policy_page_mapped true page q = some q' →
       q'.queue.getLast? = some page ∧ page ∈ q'.queue) ∧
    (∀ (page : Nat) (q q' : ClruState),
       clru_policy_page_mapped true page q = some q' →
       q'.tail = some q.next_id ∧ (q'.nodes q.next_id).page = page) := by
  refine ⟨fun page q => rfl, fun page q => rfl, ?_, ?_⟩
  · intro page q q' h
    have h' : ({ q with queue := q.queue ++ [page] } : FifoQueue) = q' := by
      simpa [fifo_policy_page_mapped] using h
    rw [← h']
    constructor
    · show (q.queue ++ [page]).getLast? = some page
      exact List.getLast?_concat _
    · simp
  · intro page q q' h
    unfold clru_policy_page_mapped at h
    simp only [Bool.true_eq_false, if_false] at h
    split at h
    · simp only [Option.some.injEq] at h
      rw [← h]
      refine ⟨rfl, ?_⟩
      show (Function.update q.nodes q.next_id
        ⟨page, Option.none, Option.none⟩ q.next_id).page = page
      rw [Function.update_same]
    · split at h
      · exact absurd h (by simp)
      · rename_i t heq
        simp only [Option.some.injEq] at h
        rw [← h]
        refine ⟨rfl, ?_⟩
        by_cases h1 : q.next_id = t
        · subst h1
          simp [Function.update_apply]
        · simp [Function.update_apply, h1]

/-- C10 (witness): recording page 5 into the empty FIFO queue with a
successful allocation places it at the tail. -/
theorem C10_page_mapped_alloc_failure_witness :
    c10_q.queue.getLast? = some 5 ∧ 5 ∈ c10_q.queue :=
  C10_page_mapped_alloc_failure.2.2.1 5 (fifo_policy_startup 3) c10_q rfl
